import Mathlib

/-!
# Verification of the pyvantagepro2 protocol/parsing core

Shallow embedding of the Davis Vantage Pro2 driver found in
`src/pyvantagepro2` (with its duplicate module copy `src/pyvantagepro3`):
the CRC16 engine (`parser.VantageProCRC`), the date/time codecs
(`pack_dmp_date_time`, `unpack_dmp_date_time`, `pack_datetime`,
`unpack_datetime`), the archive and LOOP record decoders
(`ArchiveDataParserRevB`, `LoopDataParserRevB` together with
`utils.bytes_to_binary`), the archive dump walk
(`VantagePro2._get_archives_generator`), the accumulation step
(`VantagePro2.get_archives` with `utils.ListDict.sorted_by`) and the retry
policy (`device.retry_policy`).

Bytes are modelled as `Nat` (each `< 256` where it matters), byte strings
as `List Nat`, and Python exceptions as `Except PyErr`.
-/

namespace PyVP2

set_option autoImplicit false

/-- Python exception kinds raised by the embedded code: `TypeError`
(iterating an `int` in `bytes_to_binary`), `ValueError` (the
`datetime(...)` constructor on out-of-range fields), `struct.error`
(`struct.unpack(_from)` on a too-short buffer). -/
inductive PyErr where
  | typeError
  | valueError
  | structError
deriving DecidableEq, Repr

/-- Model of a Python `datetime.datetime` value (naive, to second
precision — the driver never uses microseconds). -/
structure DateTime where
  year : Nat
  month : Nat
  day : Nat
  hour : Nat
  minute : Nat
  second : Nat
deriving DecidableEq, Repr

/-- Gregorian leap-year rule, as used by Python's `datetime` module. -/
def isLeap (y : Nat) : Bool :=
  y % 4 = 0 && (y % 100 ≠ 0 || y % 400 = 0)

/-- Days in a month, per Python's `datetime` validation. -/
def daysInMonth (y m : Nat) : Nat :=
  if m = 2 then (if isLeap y then 29 else 28)
  else if m = 4 ∨ m = 6 ∨ m = 9 ∨ m = 11 then 30
  else 31

/-- Field validity enforced by the `datetime.datetime` constructor
(`MINYEAR = 1`, `MAXYEAR = 9999`; out-of-range fields raise
`ValueError`). -/
def validDT (d : DateTime) : Bool :=
  1 ≤ d.year && d.year ≤ 9999 && 1 ≤ d.month && d.month ≤ 12 &&
  1 ≤ d.day && d.day ≤ daysInMonth d.year d.month &&
  d.hour ≤ 23 && d.minute ≤ 59 && d.second ≤ 59

/-- The `datetime.datetime(year, month, day, hour, minute, second)`
constructor: `some` on valid fields, `none` where Python raises
`ValueError`. -/
def mkDatetime (y mo d h mi s : Nat) : Option DateTime :=
  let dt : DateTime := ⟨y, mo, d, h, mi, s⟩
  if validDT dt then some dt else none

/-- Mixed-radix encoding of a datetime. For calendar-valid datetimes
(month ≤ 12 < 13, day ≤ 31 < 32, hour < 24, minute < 60, second < 60 —
every datetime the driver constructs passes `validDT`) comparing keys
coincides with Python's lexicographic `datetime` comparison. -/
def key (d : DateTime) : Nat :=
  ((((d.year * 13 + d.month) * 32 + d.day) * 24 + d.hour) * 60 + d.minute) * 60
    + d.second

/-! ## CRC16 engine (`parser.VantageProCRC`) -/

/-- The 256-entry lookup table `VantageProCRC.CRC_TABLE`. -/
def CRC_TABLE : List Nat := [
  0x0, 0x1021, 0x2042, 0x3063, 0x4084, 0x50A5, 0x60C6, 0x70E7,
  0x8108, 0x9129, 0xA14A, 0xB16B, 0xC18C, 0xD1AD, 0xE1CE, 0xF1EF,
  0x1231, 0x210, 0x3273, 0x2252, 0x52B5, 0x4294, 0x72F7, 0x62D6,
  0x9339, 0x8318, 0xB37B, 0xA35A, 0xD3BD, 0xC39C, 0xF3FF, 0xE3DE,
  0x2462, 0x3443, 0x420, 0x1401, 0x64E6, 0x74C7, 0x44A4, 0x5485,
  0xA56A, 0xB54B, 0x8528, 0x9509, 0xE5EE, 0xF5CF, 0xC5AC, 0xD58D,
  0x3653, 0x2672, 0x1611, 0x630, 0x76D7, 0x66F6, 0x5695, 0x46B4,
  0xB75B, 0xA77A, 0x9719, 0x8738, 0xF7DF, 0xE7FE, 0xD79D, 0xC7BC,
  0x48C4, 0x58E5, 0x6886, 0x78A7, 0x840, 0x1861, 0x2802, 0x3823,
  0xC9CC, 0xD9ED, 0xE98E, 0xF9AF, 0x8948, 0x9969, 0xA90A, 0xB92B,
  0x5AF5, 0x4AD4, 0x7AB7, 0x6A96, 0x1A71, 0xA50, 0x3A33, 0x2A12,
  0xDBFD, 0xCBDC, 0xFBBF, 0xEB9E, 0x9B79, 0x8B58, 0xBB3B, 0xAB1A,
  0x6CA6, 0x7C87, 0x4CE4, 0x5CC5, 0x2C22, 0x3C03, 0xC60, 0x1C41,
  0xEDAE, 0xFD8F, 0xCDEC, 0xDDCD, 0xAD2A, 0xBD0B, 0x8D68, 0x9D49,
  0x7E97, 0x6EB6, 0x5ED5, 0x4EF4, 0x3E13, 0x2E32, 0x1E51, 0xE70,
  0xFF9F, 0xEFBE, 0xDFDD, 0xCFFC, 0xBF1B, 0xAF3A, 0x9F59, 0x8F78,
  0x9188, 0x81A9, 0xB1CA, 0xA1EB, 0xD10C, 0xC12D, 0xF14E, 0xE16F,
  0x1080, 0xA1, 0x30C2, 0x20E3, 0x5004, 0x4025, 0x7046, 0x6067,
  0x83B9, 0x9398, 0xA3FB, 0xB3DA, 0xC33D, 0xD31C, 0xE37F, 0xF35E,
  0x2B1, 0x1290, 0x22F3, 0x32D2, 0x4235, 0x5214, 0x6277, 0x7256,
  0xB5EA, 0xA5CB, 0x95A8, 0x8589, 0xF56E, 0xE54F, 0xD52C, 0xC50D,
  0x34E2, 0x24C3, 0x14A0, 0x481, 0x7466, 0x6447, 0x5424, 0x4405,
  0xA7DB, 0xB7FA, 0x8799, 0x97B8, 0xE75F, 0xF77E, 0xC71D, 0xD73C,
  0x26D3, 0x36F2, 0x691, 0x16B0, 0x6657, 0x7676, 0x4615, 0x5634,
  0xD94C, 0xC96D, 0xF90E, 0xE92F, 0x99C8, 0x89E9, 0xB98A, 0xA9AB,
  0x5844, 0x4865, 0x7806, 0x6827, 0x18C0, 0x8E1, 0x3882, 0x28A3,
  0xCB7D, 0xDB5C, 0xEB3F, 0xFB1E, 0x8BF9, 0x9BD8, 0xABBB, 0xBB9A,
  0x4A75, 0x5A54, 0x6A37, 0x7A16, 0xAF1, 0x1AD0, 0x2AB3, 0x3A92,
  0xFD2E, 0xED0F, 0xDD6C, 0xCD4D, 0xBDAA, 0xAD8B, 0x9DE8, 0x8DC9,
  0x7C26, 0x6C07, 0x5C64, 0x4C45, 0x3CA2, 0x2C83, 0x1CE0, 0xCC1,
  0xEF1F, 0xFF3E, 0xCF5D, 0xDF7C, 0xAF9B, 0xBFBA, 0x8FD9, 0x9FF8,
  0x6E17, 0x7E36, 0x4E55, 0x5E74, 0x2E93, 0x3EB2, 0xED1, 0x1EF0]

/-- One step of the CRC loop:
`crc = CRC_TABLE[(crc >> 8) ^ byte] ^ ((crc & 0xFF) << 8)`.
`>> 8`, `& 0xFF` and `<< 8` on nonnegative Python ints are `/ 256`,
`% 256` and `* 256`. -/
def crcStep (crc byte : Nat) : Nat :=
  CRC_TABLE.getD ((crc / 256) ^^^ byte) 0 ^^^ ((crc % 256) * 256)

/-- `VantageProCRC.checksum`: fold the step over the data starting from 0. -/
def checksum (b : List Nat) : Nat :=
  b.foldl crcStep 0

/-- `VantageProCRC.data_with_checksum`: append the checksum as two
big-endian bytes (`struct.pack(">H", checksum)`). -/
def data_with_checksum (b : List Nat) : List Nat :=
  b ++ [checksum b / 256, checksum b % 256]

/-- `VantageProCRC.check`: true iff the data is non-empty and checksums
to zero. -/
def check (b : List Nat) : Bool :=
  b.length ≠ 0 && checksum b == 0

/-! ## Date/time codecs (`parser.py`) -/

/-- `unpack_dmp_date_time(date, time)`: when neither word is the `0xFFFF`
sentinel, decode `day = date & 0x1F`, `month = (date >> 5) & 0x0F`,
`year = ((date >> 9) & 0x7F) + 2000`, `hour, min = divmod(time, 100)` and
build a `datetime` (which raises `ValueError` on invalid fields);
otherwise return `None` (modelled `.ok none`). -/
def unpack_dmp_date_time (date time : Nat) : Except PyErr (Option DateTime) :=
  if date ≠ 0xFFFF ∧ time ≠ 0xFFFF then
    match mkDatetime ((date / 512) % 128 + 2000) ((date / 32) % 16)
        (date % 32) (time / 100) (time % 100) 0 with
    | some d => .ok (some d)
    | none => .error .valueError
  else .ok none

/-- `pack_dmp_date_time(d)`:
`vpdate = d.day + d.month * 32 + (d.year - 2000) * 512`,
`vptime = 100 * d.hour + d.minute`, packed as two little-endian 16-bit
words (`struct.pack("HH", ...)`) with the CRC appended. -/
def pack_dmp_date_time (d : DateTime) : List Nat :=
  let vpdate := d.day + d.month * 32 + (d.year - 2000) * 512
  let vptime := 100 * d.hour + d.minute
  data_with_checksum [vpdate % 256, vpdate / 256, vptime % 256, vptime / 256]

/-- Read the little-endian 16-bit word at byte offset `i`. -/
def wordAt (b : List Nat) (i : Nat) : Nat :=
  b.getD i 0 + 256 * b.getD (i + 1) 0

/-- `pack_datetime(dtime)`: six big-endian bytes
`second, minute, hour, day, month, year - 1900`
(`struct.pack(">BBBBBB", ...)`) with the CRC appended. -/
def pack_datetime (d : DateTime) : List Nat :=
  data_with_checksum [d.second, d.minute, d.hour, d.day, d.month, d.year - 1900]

/-- `unpack_datetime(data)`: runs the CRC check but discards its result,
unpacks `s, m, h, day, month, year` from `data[:6]` (`struct.unpack`
raises on fewer than 6 bytes) and builds
`datetime(year + 1900, month, day, h, m, s)`. -/
def unpack_datetime (b : List Nat) : Except PyErr DateTime :=
  if b.length < 6 then .error .structError
  else
    match mkDatetime (b.getD 5 0 + 1900) (b.getD 4 0) (b.getD 3 0)
        (b.getD 2 0) (b.getD 1 0) (b.getD 0 0) with
    | some d => .ok d
    | none => .error .valueError

/-! ## Archive record decoder (`parser.ArchiveDataParserRevB`)

Byte offsets of the fields of `ARCHIVE_FORMAT` (all little-endian, no
padding): `DateStamp` 0-1, `TimeStamp` 2-3, ..., `LeafTemps` 34-35,
`LeafWetness` 36-37, `SoilTemps` 38-41, `RecType` 42, `ExtraHum` 43-44,
`ExtraTemps` 45-47, `SoilMoist` 48-51; total width 52.  The embedding
keeps the fields the claims are about; the omitted scalar fields
(`TempOut` etc.) are plain divisions of 8/16-bit reads and cannot raise. -/

/-- The per-index fields an archive record is expanded into.  `dt` is the
`Datetime` entry; the three temperature lists carry the `- 90` signed
offset applied in `ArchiveDataParserRevB.__init__`; the other three lists
are the raw bytes. -/
structure ArchiveRecord where
  dt : Option DateTime
  soilTemps : List Int
  leafTemps : List Int
  extraTemps : List Int
  soilMoist : List Nat
  leafWetness : List Nat
  extraHum : List Nat
deriving DecidableEq, Repr

/-- `ArchiveDataParserRevB(data)`: generic unpack (`struct.unpack_from`
raises on fewer than 52 bytes), `Datetime` from
`unpack_dmp_date_time(DateStamp, TimeStamp)` (a raised `ValueError`
propagates), `- 90` applied to each byte of `SoilTemps`, `LeafTemps` and
`ExtraTemps`, and `ExtraHum`, `SoilMoist`, `LeafWetness` expanded
unchanged. -/
def parseArchiveRecord (b : List Nat) : Except PyErr ArchiveRecord :=
  if b.length < 52 then .error .structError
  else
    match unpack_dmp_date_time (wordAt b 0) (wordAt b 2) with
    | .error e => .error e
    | .ok dt => .ok
        { dt := dt
          soilTemps := ((b.drop 38).take 4).map (fun t => (t : Int) - 90)
          leafTemps := ((b.drop 34).take 2).map (fun t => (t : Int) - 90)
          extraTemps := ((b.drop 45).take 3).map (fun t => (t : Int) - 90)
          soilMoist := (b.drop 48).take 4
          leafWetness := (b.drop 36).take 2
          extraHum := (b.drop 43).take 2 }

/-! ## LOOP record decoder (`parser.LoopDataParserRevB` with
`utils.bytes_to_binary`)

`bytes_to_binary` concatenates `format(byte, "08b")` over a bytes value,
msb first, and `int(s[i])` reads character `i` of that string; special
case in its body: an argument equal to the integer `0` yields
`"00000000"`, while iterating any other integer raises `TypeError`
(a `bytes` value never compares equal to `0`, so slices always take the
per-byte path). -/

/-- `format(n, "08b")` digits, msb first, as 0/1 numbers (`n < 256`). -/
def byteBits (n : Nat) : List Nat :=
  [n / 128 % 2, n / 64 % 2, n / 32 % 2, n / 16 % 2,
   n / 8 % 2, n / 4 % 2, n / 2 % 2, n % 2]

/-- `bytes_to_binary` applied to an `int` (as at
`LoopDataParserRevB.__init__` line `self["AlarmOut"] =
bytes_to_binary(self.raw_bytes[73])`, where indexing a `bytes` with an
integer yields an `int`): `0` compares equal to `0` and yields
`"00000000"`; any other `int` is not iterable and raises `TypeError`. -/
def bytes_to_binary_int (n : Nat) : Except PyErr (List Nat) :=
  if n = 0 then .ok (List.replicate 8 0) else .error .typeError

/-- The alarm flags of a decoded LOOP record.  The LOOP frame layout puts
the inside-alarm byte at offset 70, the rain-alarm byte at 71 and the
two outside-alarm bytes at 72 and 73. -/
structure LoopRecord where
  alarmInFallBarTrend : Nat
  alarmInRisBarTrend : Nat
  alarmInLowTemp : Nat
  alarmInHighTemp : Nat
  alarmInLowHum : Nat
  alarmInHighHum : Nat
  alarmInTime : Nat
  alarmRainHighRate : Nat
  alarmRain15min : Nat
  alarmRain24hour : Nat
  alarmRainStormTotal : Nat
  alarmRainETDaily : Nat
  alarmOutLowTemp : Nat
  alarmOutHighTemp : Nat
  alarmOutWindSpeed : Nat
  alarmOut10minAvgSpeed : Nat
  alarmOutLowDewpoint : Nat
  alarmOutHighDewPoint : Nat
  alarmOutHighHeat : Nat
  alarmOutLowWindChill : Nat
  alarmOutHighTHSW : Nat
  alarmOutHighSolarRad : Nat
  alarmOutHighUV : Nat
  alarmOutUVDose : Nat
  alarmOutUVDoseEnabled : Nat
deriving DecidableEq, Repr

/-- The alarm-flag extraction of `LoopDataParserRevB.__init__`.
`struct.unpack_from` raises on fewer than 99 bytes; the steps before the
alarm section (scaling divisions, packed storm-date/time decoding, tuple
expansion) are total on byte input and are omitted, as are the
`AlarmExTempHum`/`AlarmSoilLeaf` per-byte loops after it (one-byte
slices, total).  The only step of the constructor that can raise after
the generic unpack is `bytes_to_binary(self.raw_bytes[73])`, which
receives an `int`, not a one-byte slice. -/
def parseLoop (b : List Nat) : Except PyErr LoopRecord :=
  if b.length < 99 then .error .structError
  else
    let aIn := byteBits (b.getD 70 0)
    let aRain := byteBits (b.getD 71 0)
    let aOut := byteBits (b.getD 72 0)
    match bytes_to_binary_int (b.getD 73 0) with
    | .error e => .error e
    | .ok aOut2 => .ok
        { alarmInFallBarTrend := aIn.getD 0 0
          alarmInRisBarTrend := aIn.getD 1 0
          alarmInLowTemp := aIn.getD 2 0
          alarmInHighTemp := aIn.getD 3 0
          alarmInLowHum := aIn.getD 4 0
          alarmInHighHum := aIn.getD 5 0
          alarmInTime := aIn.getD 6 0
          alarmRainHighRate := aRain.getD 0 0
          alarmRain15min := aRain.getD 1 0
          alarmRain24hour := aRain.getD 2 0
          alarmRainStormTotal := aRain.getD 3 0
          alarmRainETDaily := aRain.getD 4 0
          alarmOutLowTemp := aOut.getD 0 0
          alarmOutHighTemp := aOut.getD 1 0
          alarmOutWindSpeed := aOut.getD 2 0
          alarmOut10minAvgSpeed := aOut.getD 3 0
          alarmOutLowDewpoint := aOut.getD 4 0
          alarmOutHighDewPoint := aOut.getD 5 0
          alarmOutHighHeat := aOut.getD 6 0
          alarmOutLowWindChill := aOut.getD 7 0
          alarmOutHighTHSW := aOut2.getD 0 0
          alarmOutHighSolarRad := aOut2.getD 1 0
          alarmOutHighUV := aOut2.getD 2 0
          alarmOutUVDose := aOut2.getD 3 0
          alarmOutUVDoseEnabled := aOut2.getD 4 0 }

/-! ## The archive dump walk (`VantagePro2._get_archives_generator`)

The walk is embedded from the page loop onward (the wake-up, `DMPAFT`
handshake and dump-header exchange precede it and do not affect which
records are yielded).  `_read_dump_page` — the length check, the CRC
check and the `@retry` wrapper around them — is the walk's page source;
its per-page terminal outcome is modelled as the walk's input:
`some p` is a successfully read 267-byte page, `none` a page read whose
retries were exhausted (`BadCRCException`/`BadDataException`), on which
the loop breaks without writing anything. -/

/-- Control bytes the walk writes after a page. -/
inductive ProtoByte where
  | ack
  | esc
deriving DecidableEq, Repr

/-- Result of a dump walk: the records yielded, the control bytes
written after pages, and how many pages were consumed. -/
structure WalkResult where
  yields : List ArchiveRecord
  sent : List ProtoByte
  pagesRead : Nat
deriving DecidableEq, Repr

/-- `DmpPageParser` record block: bytes 1-260 of the 267-byte page. -/
def recordsOf (p : List Nat) : List Nat :=
  (p.drop 1).take 260

/-- The five 52-byte slots
`raw_records[offset[0]:offset[1]]` for
`offsets = [(0, 52), (52, 104), (104, 156), (156, 208), (208, 260)]`. -/
def slotsOf (p : List Nat) : List (List Nat) :=
  (List.range 5).map (fun i => ((recordsOf p).drop (52 * i)).take 52)

/-- The slot loop of one page.  Returns the yielded records, the `finish`
flag (sentinel `Datetime` or a timestamp past `stop` ends the page) and
the final `not_in_range` flag (set on a slot at or before `start`,
cleared on a yield).  A `ValueError` raised by `ArchiveDataParserRevB`
propagates out of the generator. -/
def processSlots (start stop : DateTime) :
    List (List Nat) → Bool → Except PyErr (List ArchiveRecord × Bool × Bool)
  | [], nir => .ok ([], false, nir)
  | s :: rest, nir =>
    match parseArchiveRecord s with
    | .error e => .error e
    | .ok rec =>
      match rec.dt with
      | none => .ok ([], true, nir)
      | some t =>
        if key t ≤ key stop then
          if key start < key t then
            match processSlots start stop rest false with
            | .error e => .error e
            | .ok (ys, f, nir') => .ok (rec :: ys, f, nir')
          else processSlots start stop rest true
        else .ok ([], true, nir)

/-- The page loop: up to `Pages` (the dump header's page count) pages.
After a page: `finish` → write ESC and stop; `not_in_range` → write ESC
and stop; otherwise write ACK and continue.  A failed page read
(retries exhausted) stops without writing. -/
def walkPages (start stop : DateTime) :
    Nat → List (Option (List Nat)) → Bool → Except PyErr WalkResult
  | 0, _, _ => .ok ⟨[], [], 0⟩
  | _ + 1, [], _ => .ok ⟨[], [], 0⟩
  | _ + 1, none :: _, _ => .ok ⟨[], [], 0⟩
  | n + 1, some p :: rest, nir =>
    match processSlots start stop (slotsOf p) nir with
    | .error e => .error e
    | .ok (ys, finish, nir') =>
      if finish then .ok ⟨ys, [.esc], 1⟩
      else if nir' then .ok ⟨ys, [.esc], 1⟩
      else
        match walkPages start stop n rest nir' with
        | .error e => .error e
        | .ok w => .ok ⟨ys ++ w.yields, .ack :: w.sent, w.pagesRead + 1⟩

/-! ## `VantagePro2.get_archives` (dedup + sort over the generator) -/

/-- `start_date - timedelta(minutes=start_date.minute % period)`:
since `minute % period ≤ minute`, only the minute field changes. -/
def roundStart (d : DateTime) (period : Nat) : DateTime :=
  { d with minute := d.minute - d.minute % period }

/-- The accumulation loop of `get_archives`: keep a record iff its
`Datetime` was not seen before (`if item["Datetime"] not in dates`). -/
def dedupByDatetime :
    List ArchiveRecord → List (Option DateTime) → List ArchiveRecord
  | [], _ => []
  | r :: rest, seen =>
    if r.dt ∈ seen then dedupByDatetime rest seen
    else r :: dedupByDatetime rest (r.dt :: seen)

/-- Sort key used by `ListDict.sorted_by("Datetime")`; the generator only
yields records with a present `Datetime`. -/
def recKey (r : ArchiveRecord) : Nat :=
  key (r.dt.getD ⟨0, 0, 0, 0, 0, 0⟩)

/-- Stable insertion for the model of Python's stable `sorted`. -/
def insertByKey (r : ArchiveRecord) :
    List ArchiveRecord → List ArchiveRecord
  | [] => [r]
  | x :: xs =>
    if recKey r ≤ recKey x then r :: x :: xs else x :: insertByKey r xs

/-- Model of `sorted(self, key=lambda k: k["Datetime"])`: a stable
ascending sort by timestamp. -/
def sortByDatetime : List ArchiveRecord → List ArchiveRecord
  | [] => []
  | x :: xs => insertByKey x (sortByDatetime xs)

/-- `get_archives(start_date, stop_date)`: round `start` down by
`start.minute % archive_period` minutes inside the generator, walk the
dump, and fold the yields through the dedup loop and
`sorted_by("Datetime")`. -/
def get_archives (period : Nat) (start stop : DateTime) (pageCount : Nat)
    (pages : List (Option (List Nat))) : Except PyErr (List ArchiveRecord) :=
  match walkPages (roundStart start period) stop pageCount pages false with
  | .error e => .error e
  | .ok w => .ok (sortByDatetime (dedupByDatetime w.yields []))

/-! ## Retry policy (`device.retry_policy` under `@retry`)

`retry_policy` is repository code; the `@retry` combinator itself is the
third-party `aioretry` library.  Modelled from the spec: the combinator
runs the operation, and after the k-th consecutive failure consults the
policy with a failure count of k — aborting with that failure when the
policy's first component is true, otherwise sleeping the policy's delay
and retrying.  `fuel` truncates the (a priori unbounded) loop; every
theorem holds for all sufficiently large fuel. -/

/-- `retry_policy(info) = (info.fails > 3, 1)` from `device.py`. -/
def retry_policy (fails : Nat) : Bool × Nat :=
  (decide (fails > 3), 1)

/-- One retry-wrapped run (modelled from the spec, see above).  Returns
the outcome (`none` when fuel ran out), the 1-based attempt indices
executed, and the delays slept between attempts. -/
def retryRun {E A : Type} (policy : Nat → Bool × Nat)
    (op : Nat → Except E A) :
    Nat → Nat → Option (Except E A) × List Nat × List Nat
  | 0, _ => (none, [], [])
  | fuel + 1, fails =>
    match op (fails + 1) with
    | .ok a => (some (.ok a), [fails + 1], [])
    | .error e =>
      let pr := policy (fails + 1)
      if pr.1 then (some (.error e), [fails + 1], [])
      else
        match retryRun policy op fuel (fails + 1) with
        | (r, as', ds) => (r, (fails + 1) :: as', pr.2 :: ds)

/-- The `not_in_range` flag left by a page whose slot loop ran to the end:
the last slot examined determines it; an empty run leaves the incoming
value. -/
def lastNotInRange (start : DateTime) (recs : List ArchiveRecord)
    (nir : Bool) : Bool :=
  match recs.getLast? with
  | none => nir
  | some rl => ! decide (key start < recKey rl)

/-! ## Concrete frames used by counterexamples and witnesses -/

/-- An unused archive slot: sentinel `DateStamp`/`TimeStamp`, zero body. -/
def sentinelSlot : List Nat :=
  [255, 255, 255, 255] ++ List.replicate 48 0

/-- A 52-byte archive slot with the given date and time words and a zero
body. -/
def slotAt (dateW timeW : Nat) : List Nat :=
  [dateW % 256, dateW / 256, timeW % 256, timeW / 256] ++ List.replicate 48 0

/-- The archive record decoded from a zero-body slot at timestamp `t`. -/
def zeroRec (t : DateTime) : ArchiveRecord :=
  ⟨some t, [-90, -90, -90, -90], [-90, -90], [-90, -90, -90],
   [0, 0, 0, 0], [0, 0], [0, 0]⟩

/-- A 267-byte dump page from five 52-byte slots (index byte, records,
unused bytes, CRC bytes). -/
def pageOf (s1 s2 s3 s4 s5 : List Nat) : List Nat :=
  0 :: (s1 ++ s2 ++ s3 ++ s4 ++ s5 ++ [0, 0, 0, 0, 0, 0])

/-- Dump page whose first slot is 2010-01-01 10:05 and whose remaining
slots are unused (`5153 = 1 + 1 * 32 + 10 * 512`). -/
def c2page : List Nat :=
  pageOf (slotAt 5153 1005) sentinelSlot sentinelSlot sentinelSlot sentinelSlot

/-- The record decoded from `c2page`'s first slot. -/
def c2rec : ArchiveRecord := zeroRec ⟨2010, 1, 1, 10, 5, 0⟩

/-- A 52-byte slot whose `ExtraTemps` bytes (offsets 45-47) are zero. -/
def c5slot : List Nat := slotAt 5153 1005

/-- A 99-byte LOOP frame whose inside-alarm byte (offset 70) is 5 and
whose other bytes are zero. -/
def c6frame : List Nat :=
  List.replicate 70 0 ++ 5 :: List.replicate 28 0

/-- The alarm flags decoded from `c6frame`. -/
def c6rec : LoopRecord :=
  ⟨0, 0, 0, 0, 0, 1, 0,
   0, 0, 0, 0, 0,
   0, 0, 0, 0, 0, 0, 0, 0,
   0, 0, 0, 0, 0⟩

/-- A 99-byte LOOP frame whose byte at offset 73 is 1 (nonzero) and whose
other bytes are zero. -/
def c10frame : List Nat :=
  List.replicate 73 0 ++ 1 :: List.replicate 25 0

/-- First dump page for the termination scenario: five slots at
10:10 .. 10:30 on 2010-01-01. -/
def c8p1 : List Nat :=
  pageOf (slotAt 5153 1010) (slotAt 5153 1015) (slotAt 5153 1020)
    (slotAt 5153 1025) (slotAt 5153 1030)

/-- Second dump page for the termination scenario: all slots unused. -/
def c8p2 : List Nat :=
  pageOf sentinelSlot sentinelSlot sentinelSlot sentinelSlot sentinelSlot

/-- The records of `c8p1`. -/
def c8recs : List ArchiveRecord :=
  [zeroRec ⟨2010, 1, 1, 10, 10, 0⟩, zeroRec ⟨2010, 1, 1, 10, 15, 0⟩,
   zeroRec ⟨2010, 1, 1, 10, 20, 0⟩, zeroRec ⟨2010, 1, 1, 10, 25, 0⟩,
   zeroRec ⟨2010, 1, 1, 10, 30, 0⟩]

/-! ## CRC16 lemmas -/

instance {E A : Type} [DecidableEq E] [DecidableEq A] :
    DecidableEq (Except E A) := fun a b =>
  match a, b with
  | .ok x, .ok y =>
    if h : x = y then .isTrue (by rw [h]) else .isFalse (by simp [h])
  | .error x, .error y =>
    if h : x = y then .isTrue (by rw [h]) else .isFalse (by simp [h])
  | .ok _, .error _ => .isFalse (by simp)
  | .error _, .ok _ => .isFalse (by simp)

/-- The first entry of the lookup table is zero. -/
theorem CRC_TABLE_zero : CRC_TABLE.getD 0 0 = 0 := rfl

/-- Feeding a CRC state its own high byte zeroes the table index. -/
theorem crcStep_high (c : Nat) : crcStep c (c / 256) = c % 256 * 256 := by
  unfold crcStep
  rw [Nat.xor_self, CRC_TABLE_zero, Nat.zero_xor]

/-- Feeding the remaining state its low byte telescopes to zero. -/
theorem crcStep_low (c : Nat) : crcStep (c % 256 * 256) (c % 256) = 0 := by
  unfold crcStep
  rw [Nat.mul_div_cancel _ (by norm_num : 0 < 256), Nat.xor_self,
    CRC_TABLE_zero, Nat.zero_xor, Nat.mul_mod_left]

/-- The telescoping identity: any data followed by its own big-endian
checksum checksums to zero. -/
theorem checksum_data_with_checksum (b : List Nat) :
    checksum (data_with_checksum b) = 0 := by
  have h : checksum (data_with_checksum b) =
      crcStep (crcStep (checksum b) (checksum b / 256)) (checksum b % 256) := by
    simp [data_with_checksum, checksum, List.foldl_append]
  rw [h, crcStep_high, crcStep_low]

/-- C4: appending the CRC16 of a non-empty byte sequence as two
big-endian bytes yields a frame that `check` accepts; the whole frame
checksums to zero; and `check` accepts exactly the non-empty inputs with
checksum zero. -/
theorem crc_data_with_checksum_verifies (b c : List Nat)
    (hb : 0 < b.length) (hbyte : ∀ x ∈ b, x < 256) :
    check (data_with_checksum b) = true ∧
    checksum (data_with_checksum b) = 0 ∧
    (check c = true ↔ 0 < c.length ∧ checksum c = 0) := by
  refine ⟨?_, checksum_data_with_checksum b, ?_⟩
  · unfold check
    rw [checksum_data_with_checksum b]
    simp [data_with_checksum]
  · simp [check, Nat.pos_iff_ne_zero]

/-- Witness for C4 at `b = [1, 2, 3]`, `c = [4, 5]`. -/
theorem crc_data_with_checksum_verifies_witness :
    check (data_with_checksum [1, 2, 3]) = true ∧
    checksum (data_with_checksum [1, 2, 3]) = 0 ∧
    (check [4, 5] = true ↔ 0 < [4, 5].length ∧ checksum [4, 5] = 0) :=
  crc_data_with_checksum_verifies [1, 2, 3] [4, 5] (by decide) (by decide)

/-! ## C1: the dump-date sentinel -/

/-- Counterexample to C1 as stated: the pair `(0xFFFF, 0)` is not both
`0xFFFF` (the time word is not the sentinel), yet `unpack_dmp_date_time`
returns the absent value — the source guards with
`date != 0xFFFF and time != 0xFFFF`, so a single sentinel word already
yields `None`. -/
theorem unpack_dmp_mixed_sentinel_absent :
    (0 : Nat) ≠ 0xFFFF ∧ unpack_dmp_date_time 0xFFFF 0 = .ok none := by
  decide

/-- C1 (amended): `unpack_dmp_date_time` is absent exactly when the date
word or the time word is `0xFFFF`; a non-sentinel pair decodes to a
present datetime when the decoded calendar fields are valid
(`5153 = 2010-01-01`, `1005 = 10:05`) and raises `ValueError` when they
are not (`33 = 2000-01-01` but `9999` decodes to hour 99). -/
theorem unpack_dmp_absent_iff_either_sentinel (date time : Nat)
    (hd : date ≤ 0xFFFF) (ht : time ≤ 0xFFFF) :
    (unpack_dmp_date_time date time = .ok none ↔
      date = 0xFFFF ∨ time = 0xFFFF) ∧
    unpack_dmp_date_time 5153 1005 =
      .ok (some ⟨2010, 1, 1, 10, 5, 0⟩) ∧
    unpack_dmp_date_time 33 9999 = .error .valueError := by
  refine ⟨?_, by decide, by decide⟩
  unfold unpack_dmp_date_time
  by_cases h : date ≠ 0xFFFF ∧ time ≠ 0xFFFF
  · rw [if_pos h]
    constructor
    · intro hc
      cases hmk : mkDatetime ((date / 512) % 128 + 2000) ((date / 32) % 16)
          (date % 32) (time / 100) (time % 100) 0 with
      | none => rw [hmk] at hc; exact absurd hc (by simp)
      | some d => rw [hmk] at hc; exact absurd hc (by simp)
    · intro hc
      exact absurd hc (by push_neg; exact h)
  · rw [if_neg h]
    simp only [ne_eq, not_and_or, not_not] at h
    simp [h]

/-- Witness for C1 at the all-sentinel pair. -/
theorem unpack_dmp_absent_iff_either_sentinel_witness :
    (unpack_dmp_date_time 0xFFFF 0xFFFF = .ok none ↔
      (0xFFFF : Nat) = 0xFFFF ∨ (0xFFFF : Nat) = 0xFFFF) ∧
    unpack_dmp_date_time 5153 1005 =
      .ok (some ⟨2010, 1, 1, 10, 5, 0⟩) ∧
    unpack_dmp_date_time 33 9999 = .error .valueError :=
  unpack_dmp_absent_iff_either_sentinel 0xFFFF 0xFFFF (by decide) (by decide)

/-! ## C3, C9: date/time round-trips -/

/-- No month has more than 31 days. -/
theorem daysInMonth_le_31 (y m : Nat) : daysInMonth y m ≤ 31 := by
  unfold daysInMonth
  split
  · split <;> omega
  · split <;> omega

/-- Unpacking `validDT`. -/
theorem validDT_bounds (d : DateTime) (hv : validDT d = true) :
    1 ≤ d.year ∧ d.year ≤ 9999 ∧ 1 ≤ d.month ∧ d.month ≤ 12 ∧
    1 ≤ d.day ∧ d.day ≤ daysInMonth d.year d.month ∧ d.day ≤ 31 ∧
    d.hour ≤ 23 ∧ d.minute ≤ 59 ∧ d.second ≤ 59 := by
  have h31 := daysInMonth_le_31 d.year d.month
  simp only [validDT, Bool.and_eq_true, decide_eq_true_eq] at hv
  omega

/-- C3: for every valid datetime with year 2000-2127, unpacking the two
little-endian 16-bit words packed by `pack_dmp_date_time` (the CRC bytes
at offsets 4-5 left aside) reconstructs the datetime to minute
precision. -/
theorem pack_unpack_dmp_date_time_roundtrip (d : DateTime)
    (hv : validDT d = true) (hy1 : 2000 ≤ d.year) (hy2 : d.year ≤ 2127) :
    unpack_dmp_date_time (wordAt (pack_dmp_date_time d) 0)
        (wordAt (pack_dmp_date_time d) 2) =
      .ok (some { d with second := 0 }) := by
  obtain ⟨_, _, hmo1, hmo2, hd1, hdm, hd2, hh, hmi, _⟩ := validDT_bounds d hv
  have hw0 : wordAt (pack_dmp_date_time d) 0 =
      d.day + d.month * 32 + (d.year - 2000) * 512 := by
    simp [pack_dmp_date_time, data_with_checksum, wordAt, List.getD]
    omega
  have hw2 : wordAt (pack_dmp_date_time d) 2 = 100 * d.hour + d.minute := by
    simp [pack_dmp_date_time, data_with_checksum, wordAt, List.getD]
    omega
  rw [hw0, hw2]
  unfold unpack_dmp_date_time
  rw [if_pos (by constructor <;> omega)]
  have h1 : ((d.day + d.month * 32 + (d.year - 2000) * 512) / 512) % 128 + 2000 =
      d.year := by omega
  have h2 : ((d.day + d.month * 32 + (d.year - 2000) * 512) / 32) % 16 =
      d.month := by omega
  have h3 : (d.day + d.month * 32 + (d.year - 2000) * 512) % 32 = d.day := by
    omega
  have h4 : (100 * d.hour + d.minute) / 100 = d.hour := by omega
  have h5 : (100 * d.hour + d.minute) % 100 = d.minute := by omega
  rw [h1, h2, h3, h4, h5]
  unfold mkDatetime
  have hvd : validDT ⟨d.year, d.month, d.day, d.hour, d.minute, 0⟩ = true := by
    simp only [validDT, Bool.and_eq_true, decide_eq_true_eq]
    omega
  rw [if_pos hvd]

/-- Witness for C3 at 2010-07-31 23:59:58. -/
theorem pack_unpack_dmp_date_time_roundtrip_witness :
    unpack_dmp_date_time
        (wordAt (pack_dmp_date_time ⟨2010, 7, 31, 23, 59, 58⟩) 0)
        (wordAt (pack_dmp_date_time ⟨2010, 7, 31, 23, 59, 58⟩) 2) =
      .ok (some ⟨2010, 7, 31, 23, 59, 0⟩) :=
  pack_unpack_dmp_date_time_roundtrip ⟨2010, 7, 31, 23, 59, 58⟩
    (by decide) (by decide) (by decide)

/-- C9: for every valid datetime with year 1900-2155, unpacking the first
six bytes of `pack_datetime` reconstructs the datetime exactly, seconds
included; the appended CRC bytes are dropped by `[:6]` and the CRC check
run by `unpack_datetime` does not influence the returned value. -/
theorem pack_unpack_datetime_roundtrip (d : DateTime)
    (hv : validDT d = true) (hy1 : 1900 ≤ d.year) (hy2 : d.year ≤ 2155) :
    unpack_datetime ((pack_datetime d).take 6) = .ok d := by
  have htake : (pack_datetime d).take 6 =
      [d.second, d.minute, d.hour, d.day, d.month, d.year - 1900] := by
    simp [pack_datetime, data_with_checksum]
  rw [htake]
  unfold unpack_datetime
  rw [if_neg (by simp)]
  have hy : d.year - 1900 + 1900 = d.year := by omega
  simp only [List.getD_cons_zero, List.getD_cons_succ]
  rw [hy]
  unfold mkDatetime
  rw [if_pos hv]

/-- Witness for C9 at 1900-02-28 00:00:59. -/
theorem pack_unpack_datetime_roundtrip_witness :
    unpack_datetime ((pack_datetime ⟨1900, 2, 28, 0, 0, 59⟩).take 6) =
      .ok ⟨1900, 2, 28, 0, 0, 59⟩ :=
  pack_unpack_datetime_roundtrip ⟨1900, 2, 28, 0, 0, 59⟩
    (by decide) (by decide) (by decide)

/-! ## C7: the retry bound -/

/-- C7: under `retry_policy`, an operation that fails on every attempt is
attempted exactly four times — the 1-based attempt trace is
`[1, 2, 3, 4]` — the terminal error re-raised is the fourth attempt's,
and a delay of 1 time unit is slept between consecutive attempts
(`[1, 1, 1]`).  `fuel ≥ 4` truncates the combinator's unbounded loop
without affecting the run, which aborts at the fourth failure. -/
theorem retryRun_continue {E A : Type} (policy : Nat → Bool × Nat)
    (op : Nat → Except E A) (fuel fails : Nat) (e : E)
    (hop : op (fails + 1) = .error e)
    (hpol : (policy (fails + 1)).1 = false) :
    retryRun policy op (fuel + 1) fails =
      ((retryRun policy op fuel (fails + 1)).1,
       (fails + 1) :: (retryRun policy op fuel (fails + 1)).2.1,
       (policy (fails + 1)).2 :: (retryRun policy op fuel (fails + 1)).2.2) := by
  rw [retryRun, hop]
  simp [hpol]

theorem retryRun_abort {E A : Type} (policy : Nat → Bool × Nat)
    (op : Nat → Except E A) (fuel fails : Nat) (e : E)
    (hop : op (fails + 1) = .error e)
    (hpol : (policy (fails + 1)).1 = true) :
    retryRun policy op (fuel + 1) fails = (some (.error e), [fails + 1], []) := by
  rw [retryRun, hop]
  simp [hpol]

theorem retry_terminal_after_fourth_attempt {E A : Type}
    (op : Nat → Except E A) (err : Nat → E)
    (hop : ∀ n, op n = .error (err n)) (fuel : Nat) (hf : 4 ≤ fuel) :
    retryRun retry_policy op fuel 0 =
      (some (.error (err 4)), [1, 2, 3, 4], [1, 1, 1]) := by
  obtain ⟨k, rfl⟩ : ∃ k, fuel = k + 4 := ⟨fuel - 4, by omega⟩
  rw [show k + 4 = k + 3 + 1 from rfl,
    retryRun_continue retry_policy op (k + 3) 0 _ (hop 1) (by decide)]
  rw [show k + 3 = k + 2 + 1 from rfl,
    retryRun_continue retry_policy op (k + 2) 1 _ (hop 2) (by decide)]
  rw [show k + 2 = k + 1 + 1 from rfl,
    retryRun_continue retry_policy op (k + 1) 2 _ (hop 3) (by decide)]
  rw [show k + 1 = k + 0 + 1 from rfl,
    retryRun_abort retry_policy op (k + 0) 3 _ (hop 4) (by decide)]
  simp [retry_policy]

/-- Witness for C7: the always-failing operation with fuel 10. -/
theorem retry_terminal_after_fourth_attempt_witness :
    retryRun retry_policy (fun _ => (.error () : Except Unit Unit)) 10 0 =
      (some (.error ()), [1, 2, 3, 4], [1, 1, 1]) :=
  retry_terminal_after_fourth_attempt (fun _ => .error ()) (fun _ => ())
    (fun _ => rfl) 10 (by omega)

/-! ## C5: signed offsets in archive decoding -/

/-- A contiguous slice as individually indexed bytes. -/
theorem drop_take_getD (b : List Nat) (i k : Nat) (h : i + k ≤ b.length) :
    (b.drop i).take k = (List.range k).map (fun j => b.getD (i + j) 0) := by
  apply List.ext_getElem
  · simp
    omega
  · intro n h1 h2
    simp only [List.getElem_take, List.getElem_drop, List.getElem_map,
      List.getElem_range]
    rw [List.getD_eq_getElem?_getD,
      List.getElem?_eq_getElem (by simp at h1 ⊢; omega), Option.getD_some]

/-- Counterexample to C5 as stated: a 52-byte slot whose `ExtraTemps`
bytes (offsets 45-47) are 0 decodes them to −90, not 0 —
`ArchiveDataParserRevB.__init__` applies the −90 offset to `ExtraTemps`
exactly as it does to `SoilTemps` and `LeafTemps`, in both module
copies. -/
theorem archive_extra_temps_offset_applied :
    c5slot.length = 52 ∧ c5slot.getD 45 0 = 0 ∧
    (parseArchiveRecord c5slot).map (fun r => r.extraTemps) =
      .ok [-90, -90, -90] := by
  decide

/-- C5 (amended): in archive decoding the soil-temperature,
leaf-temperature and extra-temperature byte arrays each get the fixed
signed offset −90 per byte before expansion into per-index fields, while
extra-humidity, soil-moisture and leaf-wetness bytes are expanded
without offset. -/
theorem archive_signed_offset_fields (b : List Nat) (r : ArchiveRecord)
    (hlen : b.length = 52) (hok : parseArchiveRecord b = .ok r) :
    r.soilTemps = [(b.getD 38 0 : Int) - 90, (b.getD 39 0 : Int) - 90,
      (b.getD 40 0 : Int) - 90, (b.getD 41 0 : Int) - 90] ∧
    r.leafTemps = [(b.getD 34 0 : Int) - 90, (b.getD 35 0 : Int) - 90] ∧
    r.extraTemps = [(b.getD 45 0 : Int) - 90, (b.getD 46 0 : Int) - 90,
      (b.getD 47 0 : Int) - 90] ∧
    r.soilMoist = [b.getD 48 0, b.getD 49 0, b.getD 50 0, b.getD 51 0] ∧
    r.leafWetness = [b.getD 36 0, b.getD 37 0] ∧
    r.extraHum = [b.getD 43 0, b.getD 44 0] := by
  unfold parseArchiveRecord at hok
  rw [if_neg (by omega)] at hok
  cases hu : unpack_dmp_date_time (wordAt b 0) (wordAt b 2) with
  | error e => rw [hu] at hok; exact absurd hok (by simp)
  | ok dt =>
    rw [hu] at hok
    have hr := Except.ok.inj hok
    subst hr
    rw [drop_take_getD b 38 4 (by omega), drop_take_getD b 34 2 (by omega),
      drop_take_getD b 45 3 (by omega), drop_take_getD b 48 4 (by omega),
      drop_take_getD b 36 2 (by omega), drop_take_getD b 43 2 (by omega)]
    simp [List.range_succ]

/-- Witness for C5 at the zero-body slot `c5slot`. -/
theorem archive_signed_offset_fields_witness :
    c2rec.soilTemps = [(c5slot.getD 38 0 : Int) - 90,
      (c5slot.getD 39 0 : Int) - 90, (c5slot.getD 40 0 : Int) - 90,
      (c5slot.getD 41 0 : Int) - 90] ∧
    c2rec.leafTemps = [(c5slot.getD 34 0 : Int) - 90,
      (c5slot.getD 35 0 : Int) - 90] ∧
    c2rec.extraTemps = [(c5slot.getD 45 0 : Int) - 90,
      (c5slot.getD 46 0 : Int) - 90, (c5slot.getD 47 0 : Int) - 90] ∧
    c2rec.soilMoist = [c5slot.getD 48 0, c5slot.getD 49 0,
      c5slot.getD 50 0, c5slot.getD 51 0] ∧
    c2rec.leafWetness = [c5slot.getD 36 0, c5slot.getD 37 0] ∧
    c2rec.extraHum = [c5slot.getD 43 0, c5slot.getD 44 0] :=
  archive_signed_offset_fields c5slot c2rec (by decide) (by decide)

/-! ## C6: inside-alarm bit expansion -/

/-- Counterexample to C6 as stated: on a 99-byte LOOP frame with
inside-alarm byte `0b00000101`, the decoder sets `AlarmInLowTemp = 0`,
`AlarmInFallBarTrend = 0` and `AlarmInHighHum = 1` — string index `i` of
the `"08b"` rendering is bit `7 - i` of the byte, so bit 2 lands on
`AlarmInHighHum` (index 5) and bit 0 on the unread index 7, not on the
flags the claim names. -/
theorem loop_inside_alarm_byte5_highhum :
    c6frame.length = 99 ∧ c6frame.getD 70 0 = 5 ∧
    (parseLoop c6frame).map
        (fun r => (r.alarmInLowTemp, r.alarmInFallBarTrend,
          r.alarmInHighHum)) = .ok (0, 0, 1) := by
  decide

/-- C6 (amended): for every 99-byte LOOP frame whose inside-alarm byte
(offset 70) is `0b00000101` and that decodes to a record, the record has
`AlarmInHighHum = 1` and every other `AlarmIn*` flag 0: the flags read
the binary string of the byte msb first, so flag index `i` is bit
`7 - i`, bit 2 is `AlarmInHighHum` and bit 0 falls on the unread eighth
position. -/
theorem loop_inside_alarm_byte5_flags (b : List Nat) (r : LoopRecord)
    (hlen : b.length = 99) (h70 : b.getD 70 0 = 5)
    (hok : parseLoop b = .ok r) :
    r.alarmInFallBarTrend = 0 ∧ r.alarmInRisBarTrend = 0 ∧
    r.alarmInLowTemp = 0 ∧ r.alarmInHighTemp = 0 ∧
    r.alarmInLowHum = 0 ∧ r.alarmInHighHum = 1 ∧ r.alarmInTime = 0 := by
  unfold parseLoop at hok
  rw [if_neg (by omega)] at hok
  cases hu : bytes_to_binary_int (b.getD 73 0) with
  | error e => rw [hu] at hok; exact absurd hok (by simp)
  | ok aOut2 =>
    rw [hu] at hok
    have hr := Except.ok.inj hok
    subst hr
    rw [h70]
    exact ⟨rfl, rfl, rfl, rfl, rfl, rfl, rfl⟩

/-- Witness for C6 at the concrete frame `c6frame`. -/
theorem loop_inside_alarm_byte5_flags_witness :
    c6rec.alarmInFallBarTrend = 0 ∧ c6rec.alarmInRisBarTrend = 0 ∧
    c6rec.alarmInLowTemp = 0 ∧ c6rec.alarmInHighTemp = 0 ∧
    c6rec.alarmInLowHum = 0 ∧ c6rec.alarmInHighHum = 1 ∧
    c6rec.alarmInTime = 0 :=
  loop_inside_alarm_byte5_flags c6frame c6rec (by decide) (by decide)
    (by decide)

/-! ## C10: the integer byte at offset 73 gates LOOP decoding -/

/-- C10: a 99-byte LOOP frame decodes to a record exactly when its byte
at offset 73 is 0 — `bytes_to_binary` receives that byte as an `int`,
yields `"00000000"` for 0 (so the five second-word outside-alarm flags
all decode to 0) and raises `TypeError` for any other value. -/
theorem loop_byte73_gates_construction (b : List Nat)
    (hlen : b.length = 99) :
    (parseLoop b).map
        (fun r => (r.alarmOutHighTHSW, r.alarmOutHighSolarRad,
          r.alarmOutHighUV, r.alarmOutUVDose, r.alarmOutUVDoseEnabled)) =
      if b.getD 73 0 = 0 then .ok (0, 0, 0, 0, 0)
      else .error PyErr.typeError := by
  unfold parseLoop bytes_to_binary_int
  rw [if_neg (by omega)]
  by_cases h73 : b.getD 73 0 = 0
  · rw [if_pos h73, if_pos h73]
    rfl
  · rw [if_neg h73, if_neg h73]
    rfl

/-- Witness for C10 at a frame with byte 73 zero (`c6frame`) and a frame
with byte 73 nonzero (`c10frame`). -/
theorem loop_byte73_gates_construction_witness :
    ((parseLoop c6frame).map
        (fun r => (r.alarmOutHighTHSW, r.alarmOutHighSolarRad,
          r.alarmOutHighUV, r.alarmOutUVDose, r.alarmOutUVDoseEnabled)) =
      if c6frame.getD 73 0 = 0 then .ok (0, 0, 0, 0, 0)
      else .error PyErr.typeError) ∧
    ((parseLoop c10frame).map
        (fun r => (r.alarmOutHighTHSW, r.alarmOutHighSolarRad,
          r.alarmOutHighUV, r.alarmOutUVDose, r.alarmOutUVDoseEnabled)) =
      if c10frame.getD 73 0 = 0 then .ok (0, 0, 0, 0, 0)
      else .error PyErr.typeError) :=
  ⟨loop_byte73_gates_construction c6frame (by decide),
   loop_byte73_gates_construction c10frame (by decide)⟩

/-! ## Dump-walk lemmas -/

/-- Every record yielded by the slot loop has a present timestamp lying
in the half-open interval `(start, stop]`. -/
theorem processSlots_sound (start stop : DateTime) (slots : List (List Nat)) :
    ∀ (nir : Bool) (ys : List ArchiveRecord) (f nir' : Bool),
      processSlots start stop slots nir = .ok (ys, f, nir') →
      ∀ r ∈ ys, r.dt.isSome = true ∧ key start < recKey r ∧
        recKey r ≤ key stop := by
  induction slots with
  | nil =>
    intro nir ys f nir' h r hr
    simp only [processSlots, Except.ok.injEq, Prod.mk.injEq] at h
    obtain ⟨rfl, -, -⟩ := h
    simp at hr
  | cons s rest ih =>
    intro nir ys f nir' h r hr
    rw [processSlots] at h
    cases hp : parseArchiveRecord s with
    | error e => rw [hp] at h; exact absurd h (by simp)
    | ok rec =>
      rw [hp] at h
      dsimp only at h
      cases hdt : rec.dt with
      | none =>
        rw [hdt] at h
        simp only [Except.ok.injEq, Prod.mk.injEq] at h
        obtain ⟨rfl, -, -⟩ := h
        simp at hr
      | some t =>
        rw [hdt] at h
        dsimp only at h
        by_cases h1 : key t ≤ key stop
        · rw [if_pos h1] at h
          by_cases h2 : key start < key t
          · rw [if_pos h2] at h
            cases hrec : processSlots start stop rest false with
            | error e => rw [hrec] at h; exact absurd h (by simp)
            | ok tri =>
              obtain ⟨ys', f', nir''⟩ := tri
              rw [hrec] at h
              simp only [Except.ok.injEq, Prod.mk.injEq] at h
              obtain ⟨hy, -, -⟩ := h
              rw [← hy] at hr
              rcases hr with _ | ⟨_, hr'⟩
              · exact ⟨by simp [hdt], by simp [recKey, hdt, h2],
                  by simp [recKey, hdt, h1]⟩
              · exact ih false ys' f' nir'' hrec r hr'
          · rw [if_neg h2] at h
            exact ih true ys f nir' h r hr
        · rw [if_neg h1] at h
          simp only [Except.ok.injEq, Prod.mk.injEq] at h
          obtain ⟨rfl, -, -⟩ := h
          simp at hr

/-- Every record yielded by the page walk has a present timestamp in
`(start, stop]`. -/
theorem walkPages_sound (start stop : DateTime) (n : Nat) :
    ∀ (pages : List (Option (List Nat))) (nir : Bool) (w : WalkResult),
      walkPages start stop n pages nir = .ok w →
      ∀ r ∈ w.yields, r.dt.isSome = true ∧ key start < recKey r ∧
        recKey r ≤ key stop := by
  induction n with
  | zero =>
    intro pages nir w h r hr
    rw [walkPages] at h
    rw [← Except.ok.inj h] at hr
    simp at hr
  | succ m ih =>
    intro pages nir w h r hr
    cases pages with
    | nil =>
      rw [walkPages] at h
      rw [← Except.ok.inj h] at hr
      simp at hr
    | cons p0 rest =>
      cases p0 with
      | none =>
        rw [walkPages] at h
        rw [← Except.ok.inj h] at hr
        simp at hr
      | some p =>
        rw [walkPages] at h
        cases hps : processSlots start stop (slotsOf p) nir with
        | error e => rw [hps] at h; exact absurd h (by simp)
        | ok tri =>
          obtain ⟨ys, finish, nir'⟩ := tri
          rw [hps] at h
          dsimp only at h
          by_cases hf : finish = true
          · rw [if_pos hf] at h
            rw [← Except.ok.inj h] at hr
            exact processSlots_sound start stop (slotsOf p) nir ys finish
              nir' hps r hr
          · rw [if_neg hf] at h
            by_cases hn : nir' = true
            · rw [if_pos hn] at h
              rw [← Except.ok.inj h] at hr
              exact processSlots_sound start stop (slotsOf p) nir ys finish
                nir' hps r hr
            · rw [if_neg hn] at h
              cases hw : walkPages start stop m rest nir' with
              | error e => rw [hw] at h; exact absurd h (by simp)
              | ok w' =>
                rw [hw] at h
                rw [← Except.ok.inj h] at hr
                rcases List.mem_append.mp hr with hl | hrgt
                · exact processSlots_sound start stop (slotsOf p) nir ys
                    finish nir' hps r hl
                · exact ih rest nir' w' hw r hrgt

/-! ## Dedup and sort lemmas -/

/-- Dedup only keeps elements of the input. -/
theorem mem_of_mem_dedup (l : List ArchiveRecord) :
    ∀ (seen : List (Option DateTime)) (r : ArchiveRecord),
      r ∈ dedupByDatetime l seen → r ∈ l := by
  induction l with
  | nil => intro seen r h; simp [dedupByDatetime] at h
  | cons x rest ih =>
    intro seen r h
    rw [dedupByDatetime] at h
    by_cases hx : x.dt ∈ seen
    · rw [if_pos hx] at h
      exact .tail _ (ih seen r h)
    · rw [if_neg hx] at h
      rcases h with _ | ⟨_, h'⟩
      · exact .head _
      · exact .tail _ (ih _ r h')

/-- A surviving record's timestamp was unseen, and the record is the
first element of the input carrying its timestamp. -/
theorem dedup_first (l : List ArchiveRecord) :
    ∀ (seen : List (Option DateTime)) (r : ArchiveRecord),
      r ∈ dedupByDatetime l seen →
      r.dt ∉ seen ∧
        (l.filter (fun y => decide (y.dt = r.dt))).head? = some r := by
  induction l with
  | nil => intro seen r h; simp [dedupByDatetime] at h
  | cons x rest ih =>
    intro seen r h
    rw [dedupByDatetime] at h
    by_cases hx : x.dt ∈ seen
    · rw [if_pos hx] at h
      obtain ⟨hns, hhd⟩ := ih seen r h
      have hne : ¬ x.dt = r.dt := fun he => hns (he ▸ hx)
      refine ⟨hns, ?_⟩
      rw [List.filter_cons, if_neg (by simpa using hne)]
      exact hhd
    · rw [if_neg hx] at h
      rcases h with _ | ⟨_, h'⟩
      · refine ⟨hx, ?_⟩
        rw [List.filter_cons, if_pos (by simp)]
        rfl
      · obtain ⟨hns, hhd⟩ := ih (x.dt :: seen) r h'
        have hne : ¬ x.dt = r.dt := fun he => hns (by simp [he])
        refine ⟨fun hc => hns (by simp [hc]), ?_⟩
        rw [List.filter_cons, if_neg (by simpa using hne)]
        exact hhd

/-- Every unseen input timestamp is represented in the dedup output. -/
theorem dedup_cover (l : List ArchiveRecord) :
    ∀ (seen : List (Option DateTime)) (y : ArchiveRecord),
      y ∈ l → y.dt ∉ seen →
      ∃ r ∈ dedupByDatetime l seen, r.dt = y.dt := by
  induction l with
  | nil => intro seen y hy _; simp at hy
  | cons x rest ih =>
    intro seen y hy hns
    rw [dedupByDatetime]
    by_cases hx : x.dt ∈ seen
    · rw [if_pos hx]
      rcases hy with _ | ⟨_, hy'⟩
      · exact absurd hx hns
      · exact ih seen y hy' hns
    · rw [if_neg hx]
      rcases hy with _ | ⟨_, hy'⟩
      · exact ⟨x, .head _, rfl⟩
      · by_cases hd : y.dt = x.dt
        · exact ⟨x, .head _, hd.symm⟩
        · obtain ⟨r, hr, hrdt⟩ := ih (x.dt :: seen) y hy'
            (by simp [hd, hns])
          exact ⟨r, .tail _ hr, hrdt⟩

/-- The dedup output has pairwise distinct timestamps. -/
theorem dedup_pairwise (l : List ArchiveRecord) :
    ∀ (seen : List (Option DateTime)),
      List.Pairwise (fun a b => a.dt ≠ b.dt) (dedupByDatetime l seen) := by
  induction l with
  | nil => intro seen; simp [dedupByDatetime]
  | cons x rest ih =>
    intro seen
    rw [dedupByDatetime]
    by_cases hx : x.dt ∈ seen
    · rw [if_pos hx]
      exact ih seen
    · rw [if_neg hx]
      refine List.pairwise_cons.mpr ⟨?_, ih (x.dt :: seen)⟩
      intro b hb
      have := (dedup_first rest (x.dt :: seen) b hb).1
      intro he
      exact this (by simp [he])

/-- Inserting permutes to a cons. -/
theorem insertByKey_perm (r : ArchiveRecord) (l : List ArchiveRecord) :
    (insertByKey r l).Perm (r :: l) := by
  induction l with
  | nil => rfl
  | cons x xs ih =>
    rw [insertByKey]
    by_cases hle : recKey r ≤ recKey x
    · rw [if_pos hle]
    · rw [if_neg hle]
      exact (ih.cons x).trans (List.Perm.swap r x xs)

/-- The sort permutes its input. -/
theorem sortByDatetime_perm (l : List ArchiveRecord) :
    (sortByDatetime l).Perm l := by
  induction l with
  | nil => rfl
  | cons x xs ih =>
    rw [sortByDatetime]
    exact (insertByKey_perm x (sortByDatetime xs)).trans (ih.cons x)

/-- Inserting preserves sortedness by key. -/
theorem insertByKey_pairwise (r : ArchiveRecord) (l : List ArchiveRecord)
    (h : List.Pairwise (fun a b => recKey a ≤ recKey b) l) :
    List.Pairwise (fun a b => recKey a ≤ recKey b) (insertByKey r l) := by
  induction l with
  | nil => simp [insertByKey]
  | cons x xs ih =>
    rw [insertByKey]
    obtain ⟨hx, hxs⟩ := List.pairwise_cons.mp h
    by_cases hle : recKey r ≤ recKey x
    · rw [if_pos hle]
      refine List.pairwise_cons.mpr ⟨?_, h⟩
      intro b hb
      rcases hb with _ | ⟨_, hb'⟩
      · exact hle
      · exact hle.trans (hx b hb')
    · rw [if_neg hle]
      refine List.pairwise_cons.mpr ⟨?_, ih hxs⟩
      intro b hb
      rcases (insertByKey_perm r xs).mem_iff.mp hb with _ | ⟨_, hb'⟩
      · exact Nat.le_of_not_le hle
      · exact hx b hb'

/-- The sort output is ascending by key. -/
theorem sortByDatetime_pairwise (l : List ArchiveRecord) :
    List.Pairwise (fun a b => recKey a ≤ recKey b) (sortByDatetime l) := by
  induction l with
  | nil => simp [sortByDatetime]
  | cons x xs ih =>
    rw [sortByDatetime]
    exact insertByKey_pairwise x (sortByDatetime xs) ih

/-! ## C8: dump walk termination on a sentinel slot -/

/-- The five slots of a page, as a head-cons decomposition. -/
theorem slotsOf_cons (p : List Nat) :
    slotsOf p = ((slotsOf p).headD []) :: (slotsOf p).tail := rfl

/-- A page all of whose slots decode to present timestamps at or before
`stop` runs its slot loop to the end, yielding exactly its in-range
records, with the `finish` flag clear and `not_in_range` determined by
the last slot. -/
theorem processSlots_all_in (start stop : DateTime)
    (slots : List (List Nat)) :
    ∀ (recs : List ArchiveRecord) (nir : Bool),
      slots.mapM parseArchiveRecord = .ok recs →
      (∀ r ∈ recs, r.dt.isSome = true ∧ recKey r ≤ key stop) →
      processSlots start stop slots nir =
        .ok (recs.filter (fun r => decide (key start < recKey r)), false,
          lastNotInRange start recs nir) := by
  induction slots with
  | nil =>
    intro recs nir h hall
    simp only [List.mapM_nil, pure, Except.pure, Except.ok.injEq] at h
    subst h
    simp [processSlots, lastNotInRange]
  | cons s rest ih =>
    intro recs nir h hall
    rw [List.mapM_cons] at h
    cases hp : parseArchiveRecord s with
    | error e => rw [hp] at h; exact absurd h (by simp [Bind.bind, Except.bind])
    | ok rec =>
      rw [hp] at h
      cases hm : rest.mapM parseArchiveRecord with
      | error e =>
        rw [hm] at h
        exact absurd h (by simp [Bind.bind, Except.bind, pure, Except.pure])
      | ok rs =>
        rw [hm] at h
        simp only [Bind.bind, Except.bind, pure, Except.pure,
          Except.ok.injEq] at h
        subst h
        obtain ⟨hsome, hstop⟩ := hall rec (.head _)
        obtain ⟨t, hdt⟩ := Option.isSome_iff_exists.mp hsome
        have hrk : recKey rec = key t := by simp [recKey, hdt]
        rw [processSlots, hp]
        dsimp only
        rw [hdt]
        dsimp only
        rw [if_pos (hrk ▸ hstop)]
        by_cases h2 : key start < key t
        · rw [if_pos h2,
            ih rs false hm (fun r hr => hall r (.tail _ hr))]
          dsimp only
          rw [List.filter_cons, if_pos (by simp [hrk, h2])]
          cases rs with
          | nil =>
            simp [lastNotInRange, hrk, h2]
          | cons r0 rs' =>
            simp only [lastNotInRange, List.getLast?_cons_cons]
            cases hgl : (r0 :: rs').getLast? with
            | none => exact absurd hgl (by simp)
            | some gl => rfl
        · rw [if_neg h2,
            ih rs true hm (fun r hr => hall r (.tail _ hr))]
          rw [List.filter_cons, if_neg (by simp [hrk, h2])]
          cases rs with
          | nil =>
            simp [lastNotInRange, hrk, h2]
          | cons r0 rs' =>
            simp only [lastNotInRange, List.getLast?_cons_cons]
            cases hgl : (r0 :: rs').getLast? with
            | none => exact absurd hgl (by simp)
            | some gl => rfl

/-- A page whose first slot decodes to an absent timestamp yields
nothing and sets the `finish` flag. -/
theorem processSlots_sentinel_head (start stop : DateTime)
    (s : List Nat) (rest : List (List Nat)) (r2 : ArchiveRecord)
    (nir : Bool) (hp : parseArchiveRecord s = .ok r2) (hdt : r2.dt = none) :
    processSlots start stop (s :: rest) nir = .ok ([], true, nir) := by
  rw [processSlots, hp]
  dsimp only
  rw [hdt]

/-- C8: when the dump header declares 2 pages, every slot of page 1
decodes to a present timestamp at or before `stop` with the last slot
past `start`, and page 2's first slot carries the sentinel timestamps,
the walk yields exactly the in-range records of page 1 (page 2
contributes nothing before its leading sentinel slot), writes an ACK
after page 1 and the ESC cancel byte — never an ACK — after the terminal
page 2, and requests no page beyond the second. -/
theorem dump_walk_sentinel_second_page (start stop : DateTime)
    (p1 p2 : List Nat) (recs1 : List ArchiveRecord)
    (h1 : (slotsOf p1).mapM parseArchiveRecord = .ok recs1)
    (hall : ∀ r ∈ recs1, r.dt.isSome = true ∧ recKey r ≤ key stop)
    (hlast : ∃ rl, recs1.getLast? = some rl ∧ key start < recKey rl)
    (h2 : ∃ r2, parseArchiveRecord ((slotsOf p2).headD []) = .ok r2 ∧
      r2.dt = none) :
    walkPages start stop 2 [some p1, some p2] false =
      .ok ⟨recs1.filter (fun r => decide (key start < recKey r)),
        [ProtoByte.ack, ProtoByte.esc], 2⟩ := by
  obtain ⟨rl, hl1, hl2⟩ := hlast
  obtain ⟨r2, hp2, hdt2⟩ := h2
  have hnir : lastNotInRange start recs1 false = false := by
    unfold lastNotInRange
    rw [hl1]
    simp [hl2]
  rw [show (2 : Nat) = 1 + 1 from rfl, walkPages,
    processSlots_all_in start stop (slotsOf p1) recs1 false h1 hall, hnir]
  dsimp only
  rw [show (1 : Nat) = 0 + 1 from rfl, walkPages, slotsOf_cons p2,
    processSlots_sentinel_head start stop _ _ r2 false hp2 hdt2]
  simp

/-- Witness for C8: page `c8p1` holds 10:10-10:30, page `c8p2` opens with
a sentinel slot; start 10:00, stop 11:00. -/
theorem dump_walk_sentinel_second_page_witness :
    walkPages ⟨2010, 1, 1, 10, 0, 0⟩ ⟨2010, 1, 1, 11, 0, 0⟩ 2
        [some c8p1, some c8p2] false =
      .ok ⟨c8recs.filter
          (fun r => decide (key ⟨2010, 1, 1, 10, 0, 0⟩ < recKey r)),
        [ProtoByte.ack, ProtoByte.esc], 2⟩ :=
  dump_walk_sentinel_second_page ⟨2010, 1, 1, 10, 0, 0⟩
    ⟨2010, 1, 1, 11, 0, 0⟩ c8p1 c8p2 c8recs (by decide) (by decide)
    ⟨zeroRec ⟨2010, 1, 1, 10, 30, 0⟩, by decide, by decide⟩
    ⟨⟨none, [-90, -90, -90, -90], [-90, -90], [-90, -90, -90],
      [0, 0, 0, 0], [0, 0], [0, 0]⟩, by decide, by decide⟩

/-! ## C2: `get_archives` range, dedup, order -/

/-- Counterexample to C2 as stated: with archive period 30,
`start = 2010-01-01 10:07:00` and `stop = 11:00:00`, the dump page
`c2page` makes `get_archives` return the record timestamped
10:05:00 — at or before `start`, hence outside `(start, stop]` — because
the generator first rounds `start` down by `start.minute % period`
minutes (here to 10:00:00) and filters against the rounded bound. -/
theorem get_archives_before_start_returned :
    (get_archives 30 ⟨2010, 1, 1, 10, 7, 0⟩ ⟨2010, 1, 1, 11, 0, 0⟩ 1
        [some c2page]).map (List.map (fun r => r.dt)) =
      .ok [some ⟨2010, 1, 1, 10, 5, 0⟩] ∧
    key ⟨2010, 1, 1, 10, 5, 0⟩ ≤ key ⟨2010, 1, 1, 10, 7, 0⟩ := by
  decide

/-- C2 (amended): `get_archives(start, stop)` returns, of the records the
dump walk yields before it terminates, exactly one representative per
timestamp — the first yielded record with that timestamp — sorted in
ascending timestamp order; every returned record's timestamp lies in
`(start', stop]` where `start'` is `start` rounded down by
`start.minute % archive_period` minutes. -/
theorem get_archives_rounded_range_dedup_sorted
    (period : Nat) (start stop : DateTime) (n : Nat)
    (pages : List (Option (List Nat))) (w : WalkResult)
    (out : List ArchiveRecord) (hperiod : 0 < period)
    (hw : walkPages (roundStart start period) stop n pages false = .ok w)
    (hout : get_archives period start stop n pages = .ok out) :
    out.Forall (fun r => r.dt.isSome = true ∧
      key (roundStart start period) < recKey r ∧ recKey r ≤ key stop) ∧
    List.Pairwise (fun a b => recKey a ≤ recKey b) out ∧
    List.Pairwise (fun a b => a.dt ≠ b.dt) out ∧
    out.Forall (fun r =>
      (w.yields.filter (fun y => decide (y.dt = r.dt))).head? = some r) ∧
    w.yields.Forall
      (fun y => out.any (fun r => decide (r.dt = y.dt)) = true) := by
  unfold get_archives at hout
  rw [hw] at hout
  dsimp only at hout
  have hout' := Except.ok.inj hout
  subst hout'
  have hperm := sortByDatetime_perm (dedupByDatetime w.yields [])
  have hsound := walkPages_sound (roundStart start period) stop n pages
    false w hw
  refine ⟨?_, sortByDatetime_pairwise _, ?_, ?_, ?_⟩
  · rw [List.forall_iff_forall_mem]
    intro r hr
    exact hsound r (mem_of_mem_dedup _ _ r (hperm.mem_iff.mp hr))
  · exact (List.Perm.pairwise_iff (fun h => h.symm) hperm).mpr
      (dedup_pairwise w.yields [])
  · rw [List.forall_iff_forall_mem]
    intro r hr
    exact (dedup_first w.yields [] r (hperm.mem_iff.mp hr)).2
  · rw [List.forall_iff_forall_mem]
    intro y hy
    obtain ⟨r, hr, hrdt⟩ := dedup_cover w.yields [] y hy (by simp)
    rw [List.any_eq_true]
    exact ⟨r, hperm.mem_iff.mpr hr, by simp [hrdt]⟩

/-- Witness for C2 at the single-page dump `c2page`. -/
theorem get_archives_rounded_range_dedup_sorted_witness :
    ([c2rec] : List ArchiveRecord).Forall (fun r => r.dt.isSome = true ∧
      key (roundStart ⟨2010, 1, 1, 10, 7, 0⟩ 30) < recKey r ∧
      recKey r ≤ key ⟨2010, 1, 1, 11, 0, 0⟩) ∧
    List.Pairwise (fun a b => recKey a ≤ recKey b) [c2rec] ∧
    List.Pairwise (fun a b => a.dt ≠ b.dt) [c2rec] ∧
    ([c2rec] : List ArchiveRecord).Forall (fun r =>
      ((⟨[c2rec], [ProtoByte.esc], 1⟩ : WalkResult).yields.filter
        (fun y => decide (y.dt = r.dt))).head? = some r) ∧
    (⟨[c2rec], [ProtoByte.esc], 1⟩ : WalkResult).yields.Forall
      (fun y => ([c2rec] : List ArchiveRecord).any
        (fun r => decide (r.dt = y.dt)) = true) :=
  get_archives_rounded_range_dedup_sorted 30 ⟨2010, 1, 1, 10, 7, 0⟩
    ⟨2010, 1, 1, 11, 0, 0⟩ 1 [some c2page] ⟨[c2rec], [ProtoByte.esc], 1⟩
    [c2rec] (by decide) (by decide) (by decide)

end PyVP2
